import Mathlib

/-
  Shallow embedding of the DMarket bot price-synchronization engine
  (bot/bot.py) and a verification of its central properties.

  Conventions used throughout:
  * Prices are rational numbers.  Pythons float("inf") sentinel returned by
    BotManager.get_max_price when no rule matches is modelled as `none`
    (so get_max_price returns Option Rat).
  * Optional string attributes follow Python truthiness: the empty string
    means "unspecified / wildcard", exactly as the source tests `if phase:`.
  * A price rule record always carries all six keys, as every writer in the
    source (update_max_price and ensure_price_entry_exists) stores full
    records; absent optional keys in hand-edited JSON are modelled as "".
  * round(x, 2) is modelled as round2; the exact tie policy of Python
    rounding is immaterial to every statement proved here.
-/

/-- One entry of BotManager.max_prices, a record of config/max_prices.json. -/
structure PriceRule where
  item : String
  phase : String
  float : String
  seed : String
  max_price : Rat
  min_price : Rat
deriving DecidableEq, Repr

/-- Specificity of a rule: `sum(1 for k in [phase, float, seed] if x.get(k, ""))`,
counting the attributes the rule specifies non-empty. -/
def specificity (r : PriceRule) : Nat :=
  (if r.phase ≠ "" then 1 else 0) +
  (if r.float ≠ "" then 1 else 0) +
  (if r.seed ≠ "" then 1 else 0)

/-- The matching test of get_max_price / get_min_price: the item must be equal,
and each attribute the rule specifies non-empty must equal the query value
(empty rule attributes are wildcards). -/
def ruleMatches (r : PriceRule) (item phase floatVal seed : String) : Bool :=
  r.item == item &&
  (r.phase == "" || r.phase == phase) &&
  (r.float == "" || r.float == floatVal) &&
  (r.seed == "" || r.seed == seed)

/-- The exact-key test of ensure_price_entry_exists: all four key fields equal. -/
def exactKeyMatch (r : PriceRule) (item phase floatVal seed : String) : Bool :=
  r.item == item && r.phase == phase && r.float == floatVal && r.seed == seed

/-- Pythons `max(iterable, key=...)` over a non-empty list, written with the
head as the initial best: ties keep the earliest element, a later element
replaces the best only when its key is strictly greater. -/
def pyMax {α : Type} (key : α → Nat) (best : α) : List α → α
  | [] => best
  | x :: xs => pyMax key (if key x > key best then x else best) xs

/-- BotManager.get_max_price: collect matching rules, return the max_price of
the most specific one; `none` models the float("inf") returned when no rule
matches. -/
def get_max_price (rules : List PriceRule) (item phase floatVal seed : String) : Option Rat :=
  match rules.filter (fun r => ruleMatches r item phase floatVal seed) with
  | [] => none
  | m :: ms => some (pyMax specificity m ms).max_price

/-- BotManager.get_min_price: collect matching rules, return the min_price of
the most specific one; `0` when no rule matches. -/
def get_min_price (rules : List PriceRule) (item phase floatVal seed : String) : Rat :=
  match rules.filter (fun r => ruleMatches r item phase floatVal seed) with
  | [] => 0
  | m :: ms => (pyMax specificity m ms).min_price

/-- BotManager.ensure_price_entry_exists: if an exact entry already exists,
leave the store alone and report false; otherwise append a fresh default
entry and report true. -/
def ensure_price_entry_exists (rules : List PriceRule) (item phase floatVal seed : String)
    (default_max_price default_min_price : Rat) : List PriceRule × Bool :=
  if rules.any (fun r => exactKeyMatch r item phase floatVal seed) then
    (rules, false)
  else
    (rules ++ [⟨item, phase, floatVal, seed, default_max_price, default_min_price⟩], true)

/-- The clamp of BotInstance.update_target: raise to the minimum first, then
lower to the maximum. -/
def clampPrice (optimal min_price max_price : Rat) : Rat :=
  let adjusted := if optimal < min_price then min_price else optimal
  if adjusted > max_price then max_price else adjusted

/-- RateLimiter.handle_rate_limit: raises the retries-exhausted RequestException
when retries ≥ max_retries, otherwise sleeps 2 ^ retries plus a jitter drawn
uniformly from [0, 1).  The jitter is passed explicitly; the returned value is
the sleep duration. -/
def handle_rate_limit (max_retries retries : Nat) (jitter : Rat) : Except String Rat :=
  if retries ≥ max_retries then
    Except.error "Maximum retries reached. Rate limit could not be overcome."
  else
    Except.ok ((2 : Rat) ^ retries + jitter)

/-- Outcome of one session.request call inside DMarketAPI._make_request:
either the transport raised before any HTTP response existed, or a response
with the given status code was returned. -/
inductive SendResult where
  | raised
  | resp (status : Nat)
deriving DecidableEq, Repr

/-- Observable outcome of DMarketAPI._make_request.  unboundLocal marks the
uncaught UnboundLocalError raised when the except-branch reads the local
variable response although no send of the call ever bound it. -/
inductive ReqOutcome where
  | success (attempt : Nat)
  | unboundLocal (attempt : Nat)
  | raisedOther (attempt : Nat)
  | backoffExhausted (attempt : Nat)
  | loopExit
deriving DecidableEq, Repr

/-- The retry loop of DMarketAPI._make_request (while retries ≤ max_retries,
max_retries = 5).  The state carries the last bound value of the Python local
`response` (none while still unbound): a send that raises leaves it unchanged,
so the except-branch then inspects the previous attempts response, or crashes
with UnboundLocalError when there is none.  raise_for_status raises exactly
when status ≥ 400; handle_rate_limit raises once retries ≥ 5. -/
def make_request_loop (send : Nat → SendResult) : Nat → Nat → Option Nat → ReqOutcome
  | 0, _, _ => ReqOutcome.loopExit
  | fuel + 1, retries, lastResponse =>
    if retries > 5 then ReqOutcome.loopExit
    else
      match send retries with
      | SendResult.resp status =>
        if status < 400 then ReqOutcome.success retries
        else if status == 429 then
          if retries ≥ 5 then ReqOutcome.backoffExhausted retries
          else make_request_loop send fuel (retries + 1) (some status)
        else ReqOutcome.raisedOther retries
      | SendResult.raised =>
        match lastResponse with
        | none => ReqOutcome.unboundLocal retries
        | some status =>
          if status == 429 then
            if retries ≥ 5 then ReqOutcome.backoffExhausted retries
            else make_request_loop send fuel (retries + 1) (some status)
          else ReqOutcome.raisedOther retries

/-- DMarketAPI._make_request: run the retry loop from a fresh frame, where the
local variable `response` is still unbound. -/
def make_request (send : Nat → SendResult) : ReqOutcome :=
  make_request_loop send 7 0 none

/-- One order of the order book returned by get_market_prices; price is the
raw integer-cents amount the code divides by 100, the attribute fields model
order.get("attributes", {}).get(name) with none for a missing key. -/
structure MarketOrder where
  price : Rat
  phase : Option String
  floatPartValue : Option String
  paintSeed : Option String
deriving DecidableEq, Repr

/-- The relevance filter of update_target: each attribute the target specifies
non-empty must be present on the order with an equal value. -/
def orderMatches (o : MarketOrder) (phase floatVal seed : String) : Bool :=
  (phase == "" || o.phase == some phase) &&
  (floatVal == "" || o.floatPartValue == some floatVal) &&
  (seed == "" || o.paintSeed == some seed)

/-- max(float(order["price"]) / 100 for order in relevant_orders); the [] case
is never reached by update_target. -/
def highestPrice : List MarketOrder → Rat
  | [] => 0
  | o :: os => os.foldl (fun acc o2 => max acc (o2.price / 100)) (o.price / 100)

/-- round(x, 2): round to two decimal places.  The tie policy plays no role in
any statement below. -/
def round2 (q : Rat) : Rat := ((round (q * 100) : Int) : Rat) / 100

/-- The pre-clamp optimal price of update_target step 5: current price when the
order book is empty or holds no relevant order, else the highest relevant
competing price plus 0.01, rounded to two decimals. -/
def computeOptimal (orders : List MarketOrder) (phase floatVal seed : String)
    (currentPrice : Rat) : Rat :=
  if orders.isEmpty then currentPrice
  else
    let relevant := orders.filter fun o => orderMatches o phase floatVal seed
    if relevant.isEmpty then currentPrice
    else round2 (highestPrice relevant + 1 / 100)

/-- The fields of the fetched target record that update_target reads: the
TargetID (none when the key is missing) and the Attributes name/value list. -/
structure TargetData where
  targetId : Option String
  attrs : List (String × String)
  amount : String
deriving DecidableEq, Repr

/-- The delete/create API calls update_target can issue; every retry attempt
counts as one call. -/
inductive APICall where
  | deleteCall (targetId : String)
  | createCall (title : String) (price : Rat)
deriving DecidableEq, Repr

def isCreateCall : APICall → Bool
  | APICall.createCall _ _ => true
  | _ => false

def isDeleteCall : APICall → Bool
  | APICall.deleteCall _ => true
  | _ => false

/-- Python truthiness of an optional string: none and the empty string are
falsy. -/
def optTruthy : Option String → Bool
  | none => false
  | some s => s ≠ ""

/-- Builds the attribute dict of update_target step 1 and reads one key with
default "": later duplicates overwrite earlier ones, as in a Python dict
comprehension. -/
def attrLookup (attrs : List (String × String)) (name : String) : String :=
  attrs.foldl (fun acc p => if p.1 == name then p.2 else acc) ""

/-- The shape of the bounded-retry loops of update_target (retries 0..5, so up
to six attempts): returns how many attempts were made and whether one
succeeded.  ok n tells whether the (n+1)-th attempt succeeds. -/
def retryCalls (ok : Nat → Bool) : Nat → Nat → Nat × Bool
  | 0, attempts => (attempts, false)
  | fuel + 1, attempts =>
    if ok attempts then (attempts + 1, true)
    else retryCalls ok fuel (attempts + 1)

/-- Step 3 of update_target: delete the old target with bounded retry, but only
when this is not the first cycle and the TargetID is truthy; with a missing or
empty TargetID nothing is deleted and deletion_successful is forced to false;
on the first cycle with a truthy TargetID the flag keeps its initial true. -/
def deletePhase (first_cycle_complete : Bool) (targetId : Option String)
    (deleteOk : Nat → Bool) : List APICall × Bool :=
  if first_cycle_complete && optTruthy targetId then
    (List.replicate (retryCalls deleteOk 6 0).1 (APICall.deleteCall (targetId.getD "")),
     (retryCalls deleteOk 6 0).2)
  else if !optTruthy targetId then ([], false)
  else ([], true)

/-- Step 6 of update_target: decide whether to create a new target and at which
price.  Mirrors the if/elif chain of the source exactly, including the guard
`not deletion_successful and target_id_to_delete`. -/
def createPhase (first_cycle_complete deletion_successful : Bool)
    (targetId : Option String) (currentPrice optimal : Rat) : Bool × Rat :=
  if !first_cycle_complete then (false, optimal)
  else if !deletion_successful && optTruthy targetId then (false, optimal)
  else if currentPrice = optimal then (true, currentPrice)
  else (true, optimal)

/-- What one run of BotInstance.update_target produced: the delete/create API
calls it issued, in order, and the rule store it left behind. -/
structure UpdateResult where
  calls : List APICall
  rules : List PriceRule
deriving DecidableEq, Repr

/-- BotInstance.update_target.  Inputs: the first_cycle_complete flag, the rule
store, the target title / current price / fetched record, the market fetch
result (none models get_market_prices raising, upon which the code returns
before the pricing step), and success oracles for the delete and create retry
attempts. -/
def update_target (first_cycle_complete : Bool) (rules : List PriceRule)
    (title : String) (currentPrice : Rat) (tgt : TargetData)
    (marketFetch : Option (List MarketOrder)) (deleteOk createOk : Nat → Bool) :
    UpdateResult :=
  let phase := attrLookup tgt.attrs "phase"
  let floatVal := attrLookup tgt.attrs "floatPartValue"
  let seed := attrLookup tgt.attrs "paintSeed"
  let bounds :=
    match get_max_price rules title phase floatVal seed with
    | none =>
      let dmax := round2 (currentPrice * (3 / 2))
      ((ensure_price_entry_exists rules title phase floatVal seed dmax 0).1, dmax, (0 : Rat))
    | some m => (rules, m, get_min_price rules title phase floatVal seed)
  let del := deletePhase first_cycle_complete tgt.targetId deleteOk
  match marketFetch with
  | none => ⟨del.1, bounds.1⟩
  | some orders =>
    let optimal := clampPrice (computeOptimal orders phase floatVal seed currentPrice)
      bounds.2.2 bounds.2.1
    let dec := createPhase first_cycle_complete del.2 tgt.targetId currentPrice optimal
    let createCalls :=
      if dec.1 then List.replicate (retryCalls createOk 6 0).1 (APICall.createCall title dec.2)
      else []
    ⟨del.1 ++ createCalls, bounds.1⟩

-- ### Helper lemmas about pyMax

theorem pyMax_mem {α : Type} (key : α → Nat) (l : List α) :
    ∀ b : α, pyMax key b l ∈ b :: l := by
  induction l with
  | nil => intro b; exact List.mem_cons_self b []
  | cons x xs ih =>
    intro b
    by_cases hk : key x > key b
    · have h := ih x
      simp only [pyMax, if_pos hk]
      simp only [List.mem_cons] at h ⊢
      tauto
    · have h := ih b
      simp only [pyMax, if_neg hk]
      simp only [List.mem_cons] at h ⊢
      tauto

theorem pyMax_ge {α : Type} (key : α → Nat) (l : List α) :
    ∀ b : α, ∀ c ∈ b :: l, key c ≤ key (pyMax key b l) := by
  induction l with
  | nil =>
    intro b c hc
    rcases List.mem_cons.mp hc with h | h
    · exact h ▸ Nat.le_refl _
    · exact absurd h (List.not_mem_nil c)
  | cons x xs ih =>
    intro b c hc
    by_cases hk : key x > key b
    · simp only [pyMax, if_pos hk]
      rcases List.mem_cons.mp hc with h | h
      · have hx := ih x x (List.mem_cons_self x xs)
        exact h ▸ Nat.le_trans (Nat.le_of_lt hk) hx
      · rcases List.mem_cons.mp h with h2 | h2
        · exact h2 ▸ ih x x (List.mem_cons_self x xs)
        · exact ih x c (List.mem_cons.mpr (Or.inr h2))
    · simp only [pyMax, if_neg hk]
      rcases List.mem_cons.mp hc with h | h
      · exact h ▸ ih b b (List.mem_cons_self b xs)
      · rcases List.mem_cons.mp h with h2 | h2
        · have hb := ih b b (List.mem_cons_self b xs)
          exact h2 ▸ Nat.le_trans (Nat.not_lt.mp hk) hb
        · exact ih b c (List.mem_cons.mpr (Or.inr h2))

-- ### Claim theorems (rule store and clamp)

/-- Claim C1: whenever at least one rule matches the query, get_max_price and
get_min_price return the max_price/min_price of a matching rule of maximal
specificity among all matching rules; when no rule matches, get_max_price
returns the infinity sentinel (`none`) and get_min_price returns 0. -/
theorem C1_rule_resolution (rules : List PriceRule) (item phase floatVal seed : String) :
    (rules.filter (fun r => ruleMatches r item phase floatVal seed) ≠ [] →
      ∃ r, r ∈ rules.filter (fun r => ruleMatches r item phase floatVal seed) ∧
        (∀ r', r' ∈ rules.filter (fun r => ruleMatches r item phase floatVal seed) →
          specificity r' ≤ specificity r) ∧
        get_max_price rules item phase floatVal seed = some r.max_price ∧
        get_min_price rules item phase floatVal seed = r.min_price) ∧
    (rules.filter (fun r => ruleMatches r item phase floatVal seed) = [] →
      get_max_price rules item phase floatVal seed = none ∧
      get_min_price rules item phase floatVal seed = 0) := by
  constructor
  · intro hne
    cases hm : rules.filter (fun r => ruleMatches r item phase floatVal seed) with
    | nil => exact absurd hm hne
    | cons m ms =>
      refine ⟨pyMax specificity m ms, ?_, ?_, ?_, ?_⟩
      · exact pyMax_mem specificity ms m
      · intro r' hr'
        exact pyMax_ge specificity ms m r' hr'
      · simp only [get_max_price, hm]
      · simp only [get_min_price, hm]
  · intro he
    constructor
    · simp only [get_max_price, he]
    · simp only [get_min_price, he]

theorem C1_rule_resolution_witness :
    (∃ r, r ∈ ([⟨"AK", "P1", "", "", 50, 5⟩, ⟨"AK", "", "", "", 100, 1⟩] :
          List PriceRule).filter (fun r => ruleMatches r "AK" "P1" "x" "y") ∧
        (∀ r', r' ∈ ([⟨"AK", "P1", "", "", 50, 5⟩, ⟨"AK", "", "", "", 100, 1⟩] :
              List PriceRule).filter (fun r => ruleMatches r "AK" "P1" "x" "y") →
          specificity r' ≤ specificity r) ∧
        get_max_price [⟨"AK", "P1", "", "", 50, 5⟩, ⟨"AK", "", "", "", 100, 1⟩]
            "AK" "P1" "x" "y" = some r.max_price ∧
        get_min_price [⟨"AK", "P1", "", "", 50, 5⟩, ⟨"AK", "", "", "", 100, 1⟩]
            "AK" "P1" "x" "y" = r.min_price) ∧
    (get_max_price [] "AK" "" "" "" = none ∧ get_min_price [] "AK" "" "" "" = 0) :=
  ⟨(C1_rule_resolution [⟨"AK", "P1", "", "", 50, 5⟩, ⟨"AK", "", "", "", 100, 1⟩]
      "AK" "P1" "x" "y").1 (by decide),
   (C1_rule_resolution [] "AK" "" "" "").2 rfl⟩

/-- Claim C2: the min-then-max clamp of update_target lands in [min, max]
whenever min ≤ max, and yields exactly max whenever min > max. -/
theorem C2_clamp_bounds (optimal min_price max_price : Rat) :
    (min_price ≤ max_price →
      min_price ≤ clampPrice optimal min_price max_price ∧
      clampPrice optimal min_price max_price ≤ max_price) ∧
    (max_price < min_price → clampPrice optimal min_price max_price = max_price) := by
  constructor
  · intro hle
    simp only [clampPrice]
    split_ifs with h1 h2 h2 <;> constructor <;> linarith
  · intro hlt
    simp only [clampPrice]
    split_ifs <;> linarith

theorem C2_clamp_bounds_witness :
    ((2 : Rat) ≤ clampPrice 7 2 5 ∧ clampPrice 7 2 5 ≤ 5) ∧
    clampPrice 1 4 3 = 3 :=
  ⟨(C2_clamp_bounds 7 2 5).1 (by norm_num), (C2_clamp_bounds 1 4 3).2 (by norm_num)⟩

/-- Claim C3, as stated, is false: on a rule list that already holds two exact
entries for the key, both calls return false and two entries remain, not
exactly one. -/
theorem C3_counterexample :
    ((ensure_price_entry_exists
        (ensure_price_entry_exists [⟨"A", "", "", "", 1, 0⟩, ⟨"A", "", "", "", 1, 0⟩]
          "A" "" "" "" 5 0).1 "A" "" "" "" 5 0).1.countP
      (fun r => exactKeyMatch r "A" "" "" "") = 2) ∧
    ((ensure_price_entry_exists
        (ensure_price_entry_exists [⟨"A", "", "", "", 1, 0⟩, ⟨"A", "", "", "", 1, 0⟩]
          "A" "" "" "" 5 0).1 "A" "" "" "" 5 0).2 = false) := by
  decide

/-- Claim C3 (amended): if an exact entry for the key already exists the call
adds nothing and returns false; calling twice in a row with the same key adds
at most one entry, the second call returns false, and the number of exact
entries for the key afterwards is max 1 (initial count) — exactly one whenever
the list held at most one to begin with. -/
theorem C3_ensure_idempotent (rules : List PriceRule)
    (item phase floatVal seed : String) (dmax dmin dmax2 dmin2 : Rat) :
    (rules.any (fun r => exactKeyMatch r item phase floatVal seed) = true →
      ensure_price_entry_exists rules item phase floatVal seed dmax dmin = (rules, false)) ∧
    (ensure_price_entry_exists
        (ensure_price_entry_exists rules item phase floatVal seed dmax dmin).1
        item phase floatVal seed dmax2 dmin2).2 = false ∧
    (ensure_price_entry_exists
        (ensure_price_entry_exists rules item phase floatVal seed dmax dmin).1
        item phase floatVal seed dmax2 dmin2).1.countP
        (fun r => exactKeyMatch r item phase floatVal seed) =
      max 1 (rules.countP (fun r => exactKeyMatch r item phase floatVal seed)) := by
  have hself : exactKeyMatch ⟨item, phase, floatVal, seed, dmax, dmin⟩
      item phase floatVal seed = true := by
    simp [exactKeyMatch]
  refine ⟨?_, ?_⟩
  · intro h
    simp [ensure_price_entry_exists, h]
  · by_cases h : rules.any (fun r => exactKeyMatch r item phase floatVal seed) = true
    · have hpos : 0 < rules.countP (fun r => exactKeyMatch r item phase floatVal seed) := by
        rw [List.countP_pos_iff]
        exact List.any_eq_true.mp h
      constructor
      · simp [ensure_price_entry_exists, h]
      · simp only [ensure_price_entry_exists, if_pos h]
        exact (Nat.max_eq_right hpos).symm
    · have hany : rules.any (fun r => exactKeyMatch r item phase floatVal seed) = false :=
        Bool.eq_false_iff.mpr h
      have hzero : rules.countP (fun r => exactKeyMatch r item phase floatVal seed) = 0 := by
        rw [List.countP_eq_zero]
        intro a ha hpa
        exact (List.any_eq_false.mp hany a ha) hpa
      have happ : (rules ++ [(⟨item, phase, floatVal, seed, dmax, dmin⟩ : PriceRule)]).any
          (fun r => exactKeyMatch r item phase floatVal seed) = true := by
        rw [List.any_append]
        simp [hself]
      constructor
      · simp [ensure_price_entry_exists, hany, happ]
      · rw [show (ensure_price_entry_exists
            (ensure_price_entry_exists rules item phase floatVal seed dmax dmin).1
            item phase floatVal seed dmax2 dmin2).1 =
            rules ++ [(⟨item, phase, floatVal, seed, dmax, dmin⟩ : PriceRule)] from by
          simp [ensure_price_entry_exists, hany, happ]]
        rw [List.countP_append, hzero]
        simp [hself]

theorem C3_ensure_idempotent_witness :
    ensure_price_entry_exists [⟨"A", "", "", "", 1, 0⟩] "A" "" "" "" 5 0 =
      ([⟨"A", "", "", "", 1, 0⟩], false) ∧
    (ensure_price_entry_exists
        (ensure_price_entry_exists [] "B" "P1" "" "" 5 0).1 "B" "P1" "" "" 7 1).2 = false ∧
    (ensure_price_entry_exists
        (ensure_price_entry_exists [] "B" "P1" "" "" 5 0).1 "B" "P1" "" "" 7 1).1.countP
      (fun r => exactKeyMatch r "B" "P1" "" "") =
      max 1 (([] : List PriceRule).countP (fun r => exactKeyMatch r "B" "P1" "" "")) :=
  ⟨(C3_ensure_idempotent [⟨"A", "", "", "", 1, 0⟩] "A" "" "" "" 5 0 5 0).1 (by decide),
   (C3_ensure_idempotent [] "B" "P1" "" "" 5 0 7 1).2.1,
   (C3_ensure_idempotent [] "B" "P1" "" "" 5 0 7 1).2.2⟩

/-- Claim C9, as stated, is false at attempt 5: the ceiling is 5 and attempt 5
does not exceed it, yet handle_rate_limit raises the retries-exhausted error
instead of sleeping and returning normally, because the source tests
retries >= self.max_retries. -/
theorem C9_counterexample :
    handle_rate_limit 5 5 (1 / 2) =
      Except.error "Maximum retries reached. Rate limit could not be overcome." ∧
    ¬ 5 > 5 :=
  ⟨rfl, by decide⟩

/-- Claim C9 (amended): handle_rate_limit sleeps 2 ^ attempt plus a jitter in
[0, 1) — a duration in [2 ^ attempt, 2 ^ attempt + 1) — and returns normally
whenever attempt is strictly below the configured ceiling (default 5), and
fails with the retries-exhausted error once attempt is greater than or equal
to that ceiling. -/
theorem C9_backoff (max_retries retries : Nat) (jitter : Rat)
    (h0 : 0 ≤ jitter) (h1 : jitter < 1) :
    (retries < max_retries →
      handle_rate_limit max_retries retries jitter =
        Except.ok ((2 : Rat) ^ retries + jitter) ∧
      (2 : Rat) ^ retries ≤ (2 : Rat) ^ retries + jitter ∧
      (2 : Rat) ^ retries + jitter < (2 : Rat) ^ retries + 1) ∧
    (max_retries ≤ retries →
      handle_rate_limit max_retries retries jitter =
        Except.error "Maximum retries reached. Rate limit could not be overcome.") := by
  constructor
  · intro h
    have hno : ¬ retries ≥ max_retries := Nat.not_le.mpr h
    refine ⟨by simp only [handle_rate_limit, if_neg hno], by linarith, by linarith⟩
  · intro h
    simp only [handle_rate_limit, ge_iff_le, if_pos h]

theorem C9_backoff_witness :
    handle_rate_limit 5 3 (1 / 2) = Except.ok ((2 : Rat) ^ 3 + 1 / 2) ∧
    handle_rate_limit 5 7 (1 / 2) =
      Except.error "Maximum retries reached. Rate limit could not be overcome." :=
  ⟨((C9_backoff 5 3 (1 / 2) (by norm_num) (by norm_num)).1 (by norm_num)).1,
   (C9_backoff 5 7 (1 / 2) (by norm_num) (by norm_num)).2 (by norm_num)⟩

/-- Claim C10 fails on the code: when the very first send raises before any
HTTP response exists, the except-branch of _make_request reads the local
variable response while it is still unbound, so the handler itself crashes
with an UnboundLocalError instead of inspecting a response of the current
attempt. -/
theorem C10_unbound_response :
    make_request (fun _ => SendResult.raised) = ReqOutcome.unboundLocal 0 := rfl

-- ### Helper lemmas about the retry loop and the market maximum

theorem retryCalls_all_fail (ok : Nat → Bool) :
    ∀ fuel start, (∀ j, start ≤ j → j < start + fuel → ok j = false) →
      retryCalls ok fuel start = (start + fuel, false) := by
  intro fuel
  induction fuel with
  | zero => intro start _; rfl
  | succ n ih =>
    intro start h
    have h0 : ok start = false :=
      h start (Nat.le_refl start) (Nat.lt_of_lt_of_le (Nat.lt_succ_self start) (by omega))
    simp only [retryCalls, h0, Bool.false_eq_true, if_false]
    have := ih (start + 1) (fun j hj1 hj2 => h j (by omega) (by omega))
    rw [this]
    congr 1
    omega

theorem filter_isCreate_replicate (n : Nat) (tid : String) :
    (List.replicate n (APICall.deleteCall tid)).filter isCreateCall = [] := by
  induction n with
  | zero => rfl
  | succ k ih => simp [List.replicate_succ, List.filter_cons, isCreateCall, ih]

theorem foldl_max_acc_mem (f : MarketOrder → Rat) (l : List MarketOrder) :
    ∀ a : Rat, l.foldl (fun acc o => max acc (f o)) a = a ∨
      ∃ o, o ∈ l ∧ l.foldl (fun acc o => max acc (f o)) a = f o := by
  induction l with
  | nil => intro a; left; rfl
  | cons x xs ih =>
    intro a
    rcases ih (max a (f x)) with h | ⟨o, ho, he⟩
    · rcases max_choice a (f x) with hm | hm
      · left; rw [List.foldl_cons, h, hm]
      · right; exact ⟨x, List.mem_cons_self x xs, by rw [List.foldl_cons, h, hm]⟩
    · right; exact ⟨o, List.mem_cons.mpr (Or.inr ho), by rw [List.foldl_cons]; exact he⟩

theorem foldl_max_bounds (f : MarketOrder → Rat) (l : List MarketOrder) :
    ∀ a : Rat, a ≤ l.foldl (fun acc o => max acc (f o)) a ∧
      ∀ o ∈ l, f o ≤ l.foldl (fun acc o => max acc (f o)) a := by
  induction l with
  | nil =>
    intro a
    exact ⟨le_refl a, fun o ho => absurd ho (List.not_mem_nil o)⟩
  | cons x xs ih =>
    intro a
    obtain ⟨h1, h2⟩ := ih (max a (f x))
    refine ⟨?_, ?_⟩
    · rw [List.foldl_cons]
      exact le_trans (le_max_left a (f x)) h1
    · intro o ho
      rw [List.foldl_cons]
      rcases List.mem_cons.mp ho with h | h
      · rw [h]
        exact le_trans (le_max_right a (f x)) h1
      · exact h2 o h

theorem highestPrice_mem (l : List MarketOrder) (hl : l ≠ []) :
    ∃ o, o ∈ l ∧ o.price / 100 = highestPrice l := by
  cases l with
  | nil => exact absurd rfl hl
  | cons x xs =>
    rcases foldl_max_acc_mem (fun o => o.price / 100) xs (x.price / 100) with h | ⟨o, ho, he⟩
    · exact ⟨x, List.mem_cons_self x xs, by rw [highestPrice]; exact h.symm⟩
    · exact ⟨o, List.mem_cons.mpr (Or.inr ho), by rw [highestPrice]; exact he.symm⟩

theorem highestPrice_ge (l : List MarketOrder) :
    ∀ o ∈ l, o.price / 100 ≤ highestPrice l := by
  cases l with
  | nil => exact fun o ho => absurd ho (List.not_mem_nil o)
  | cons x xs =>
    intro o ho
    obtain ⟨h1, h2⟩ := foldl_max_bounds (fun o => o.price / 100) xs (x.price / 100)
    rcases List.mem_cons.mp ho with h | h
    · rw [h, highestPrice]
      exact h1
    · rw [highestPrice]
      exact h2 o h

-- ### Claim theorems about update_target

/-- Claim C4: while the first-cycle-complete flag is still clear, update_target
issues no delete_target call and no create_target call, for every target,
rule store, market answer and retry oracle. -/
theorem C4_first_cycle_no_calls (rules : List PriceRule) (title : String)
    (currentPrice : Rat) (tgt : TargetData) (marketFetch : Option (List MarketOrder))
    (deleteOk createOk : Nat → Bool) :
    (update_target false rules title currentPrice tgt marketFetch deleteOk createOk).calls
      = [] := by
  cases h : optTruthy tgt.targetId <;> cases marketFetch <;>
    simp [update_target, deletePhase, createPhase, h]

/-- Claim C5: after the first cycle, when deletion of the existing target is
attempted (the TargetID is truthy) and every one of the six delete attempts
fails, update_target issues no create_target call in that cycle. -/
theorem C5_failed_delete_blocks_create (rules : List PriceRule) (title : String)
    (currentPrice : Rat) (tgt : TargetData) (marketFetch : Option (List MarketOrder))
    (deleteOk createOk : Nat → Bool)
    (hid : optTruthy tgt.targetId = true)
    (hfail : ∀ i, i < 6 → deleteOk i = false) :
    ((update_target true rules title currentPrice tgt marketFetch deleteOk
        createOk).calls.filter isCreateCall) = [] := by
  have hretry : retryCalls deleteOk 6 0 = (6, false) :=
    retryCalls_all_fail deleteOk 6 0 (fun j _ hj => hfail j (by omega))
  cases marketFetch <;>
    simp [update_target, deletePhase, createPhase, hid, hretry, List.filter_append,
      filter_isCreate_replicate, isCreateCall]

theorem C5_failed_delete_blocks_create_witness :
    ((update_target true [⟨"AK-47", "", "", "", 100, 0⟩] "AK-47" 10
        ⟨some "T1", [], "1"⟩ (some []) (fun _ => false) (fun _ => true)).calls.filter
      isCreateCall) = [] :=
  C5_failed_delete_blocks_create [⟨"AK-47", "", "", "", 100, 0⟩] "AK-47" 10
    ⟨some "T1", [], "1"⟩ (some []) (fun _ => false) (fun _ => true) (by decide)
    (fun _ _ => rfl)

/-- Claim C6 fails on the code: on a non-first cycle with a target whose
TargetID is missing, no delete_target call can be issued and the source even
forces deletion_successful to false, yet the creation guard also demands a
truthy TargetID, so update_target still issues a create_target call with no
successful deletion before it. -/
theorem C6_create_without_delete :
    (update_target true [⟨"AK-47", "", "", "", 100, 0⟩] "AK-47" 10
        ⟨none, [], "1"⟩ (some []) (fun _ => false) (fun _ => true)).calls =
      [APICall.createCall "AK-47" 10] := by
  decide

/-- Claim C7: the pre-clamp optimal price of update_target equals the maximum
relevant competing price plus 0.01 rounded to two decimals when a relevant
competing order exists, and falls back to the current price of the target
when the order book is empty or no order is relevant. -/
theorem C7_pre_clamp_optimal (orders : List MarketOrder) (phase floatVal seed : String)
    (currentPrice : Rat) :
    (orders.filter (fun o => orderMatches o phase floatVal seed) = [] →
      computeOptimal orders phase floatVal seed currentPrice = currentPrice) ∧
    (orders.filter (fun o => orderMatches o phase floatVal seed) ≠ [] →
      ∃ m : Rat,
        (∃ o, o ∈ orders.filter (fun o => orderMatches o phase floatVal seed) ∧
          o.price / 100 = m) ∧
        (∀ o, o ∈ orders.filter (fun o => orderMatches o phase floatVal seed) →
          o.price / 100 ≤ m) ∧
        computeOptimal orders phase floatVal seed currentPrice =
          round2 (m + 1 / 100)) := by
  constructor
  · intro h
    by_cases he : orders.isEmpty <;> simp [computeOptimal, he, h]
  · intro h
    have hne : ¬ orders.isEmpty := by
      intro he
      rw [List.isEmpty_iff.mp he] at h
      exact h rfl
    refine ⟨highestPrice (orders.filter (fun o => orderMatches o phase floatVal seed)),
      highestPrice_mem _ h, highestPrice_ge _, ?_⟩
    have hrel : ¬ (orders.filter (fun o => orderMatches o phase floatVal seed)).isEmpty := by
      intro he
      exact h (List.isEmpty_iff.mp he)
    simp [computeOptimal, hne, hrel]

theorem C7_pre_clamp_optimal_witness :
    (∃ m : Rat,
      (∃ o, o ∈ ([⟨950, none, none, none⟩, ⟨1020, none, none, none⟩] :
          List MarketOrder).filter (fun o => orderMatches o "" "" "") ∧
        o.price / 100 = m) ∧
      (∀ o, o ∈ ([⟨950, none, none, none⟩, ⟨1020, none, none, none⟩] :
          List MarketOrder).filter (fun o => orderMatches o "" "" "") →
        o.price / 100 ≤ m) ∧
      computeOptimal [⟨950, none, none, none⟩, ⟨1020, none, none, none⟩] "" "" "" 10 =
        round2 (m + 1 / 100)) ∧
    computeOptimal [⟨950, some "P2", none, none⟩] "P1" "" "" 10 = 10 :=
  ⟨(C7_pre_clamp_optimal [⟨950, none, none, none⟩, ⟨1020, none, none, none⟩]
      "" "" "" 10).2 (by decide),
   (C7_pre_clamp_optimal [⟨950, some "P2", none, none⟩] "P1" "" "" 10).1 (by decide)⟩

/-- Claim C8: an order is classified relevant exactly when every attribute the
target specifies non-empty is present on the order with an equal value;
attributes the target leaves empty impose no constraint. -/
theorem C8_order_relevance (o : MarketOrder) (phase floatVal seed : String) :
    orderMatches o phase floatVal seed = true ↔
      ((phase ≠ "" → o.phase = some phase) ∧
       (floatVal ≠ "" → o.floatPartValue = some floatVal) ∧
       (seed ≠ "" → o.paintSeed = some seed)) := by
  simp [orderMatches, or_iff_not_imp_left, and_assoc]
